import Mathlib

/-!
# Verification of the FdmHestonSolver finite-difference engine

Shallow embedding of `ql/methods/finitedifferences/multidim/fdmhestonsolver.hpp`
and of the finite-difference subsystem it declares (mesher, Dirichlet
boundary set, ADI schemes, lazy solver, interpolation/query layer).

The repository ships only the solver's interface header; the component
implementations behind it are modelled from the specification, each such
definition carrying a doc comment starting `Modelled from the spec:`.
Real values are modelled as exact rationals `ℚ`.
-/

namespace QuantLib

/-- The scheme enumeration, verbatim from the header:
`enum FdmSchemeType { HundsdorferScheme, DouglasScheme, CraigSneydScheme }`. -/
inductive FdmSchemeType where
  | HundsdorferScheme
  | DouglasScheme
  | CraigSneydScheme
deriving DecidableEq, Repr

instance : Fintype FdmSchemeType :=
  ⟨⟨{.HundsdorferScheme, .DouglasScheme, .CraigSneydScheme}, by decide⟩,
    by intro x; cases x <;> decide⟩

/-- Default scheme argument of the `FdmHestonSolver` constructor
(`FdmSchemeType type = HundsdorferScheme`). -/
def defaultSchemeType : FdmSchemeType := .HundsdorferScheme

/-- Default implicit weight of the constructor (`Real theta = 0.3`). -/
def defaultTheta : ℚ := 3 / 10

/-- Default Craig-Sneyd correction weight of the constructor (`Real mu = 0.5`). -/
def defaultMu : ℚ := 1 / 2

/-- C++ member qualifier recorded from the header declaration. -/
inductive CppQualifier where
  | constMember
  | mutableMember
  | plainMember
deriving DecidableEq, Repr

/-- The private data members of `FdmHestonSolver`, in declaration order,
with their qualifiers, verbatim from the header (lines 67-80). -/
def fdmHestonSolverMembers : List (String × CppQualifier) :=
  [ ("process_", .plainMember),
    ("mesher_", .constMember),
    ("bcSet_", .constMember),
    ("thetaCondition_", .constMember),
    ("condition_", .constMember),
    ("maturity_", .constMember),
    ("timeSteps_", .constMember),
    ("schemeType_", .constMember),
    ("theta_", .constMember),
    ("mu_", .constMember),
    ("x_", .plainMember),
    ("v_", .plainMember),
    ("initialValues_", .plainMember),
    ("resultValues_", .mutableMember),
    ("interpolation_", .mutableMember) ]

/-- The public query methods of `FdmHestonSolver` with their C++ constness,
verbatim from the header (lines 58-61): all four are declared `const`. -/
def fdmHestonSolverQueryMethods : List (String × Bool) :=
  [ ("valueAt", true), ("deltaAt", true), ("gammaAt", true), ("thetaAt", true) ]

/-! ## Tridiagonal (Thomas) solver

Modelled from the spec: §4.2 requires implicit solves to be O(gridSize)
banded (tridiagonal) solves. A row is `(a, b, c, d)`: sub-diagonal,
diagonal and super-diagonal coefficients and the right-hand side entry. -/

/-- Forward elimination sweep of the Thomas algorithm; the first two
arguments carry the previous row's modified super-diagonal and rhs. -/
def thomasFwd : ℚ → ℚ → List (ℚ × ℚ × ℚ × ℚ) → List (ℚ × ℚ)
  | _, _, [] => []
  | cp, dp, (a, b, c, d) :: rest =>
      let den := b - a * cp
      let cn := c / den
      let dn := (d - a * dp) / den
      (cn, dn) :: thomasFwd cn dn rest

/-- Back-substitution: from the modified `(c, d)` rows, working from the
last row upward (`x_i = d_i - c_i * x_{i+1}`, `x_last = d_last`). -/
def thomasBack : List (ℚ × ℚ) → List ℚ
  | [] => []
  | (c, d) :: rest =>
      match thomasBack rest with
      | [] => [d]
      | x :: xs => (d - c * x) :: x :: xs

/-- Modelled from the spec: the per-dimension implicit tridiagonal solve
(`solveFor`), Thomas algorithm. -/
def thomasSolve (rows : List (ℚ × ℚ × ℚ × ℚ)) : List ℚ :=
  thomasBack (thomasFwd 0 0 rows)

theorem thomasFwd_length (cp dp : ℚ) (rows : List (ℚ × ℚ × ℚ × ℚ)) :
    (thomasFwd cp dp rows).length = rows.length := by
  induction rows generalizing cp dp with
  | nil => rfl
  | cons r rest ih =>
      obtain ⟨a, b, c, d⟩ := r
      simp [thomasFwd, ih]

theorem thomasBack_length (l : List (ℚ × ℚ)) :
    (thomasBack l).length = l.length := by
  induction l with
  | nil => rfl
  | cons r rest ih =>
      obtain ⟨c, d⟩ := r
      simp only [thomasBack]
      cases h : thomasBack rest with
      | nil => simp [h] at ih; simp [ih]
      | cons x xs => simpa [h] using ih

theorem thomasSolve_length (rows : List (ℚ × ℚ × ℚ × ℚ)) :
    (thomasSolve rows).length = rows.length := by
  simp [thomasSolve, thomasBack_length, thomasFwd_length]

/-- A Dirichlet-overwritten first row `(0, 1, 0, val)` forces the first
solution entry to `val`, whatever the other rows hold. -/
theorem thomasSolve_dirichlet_head (val : ℚ) (rest : List (ℚ × ℚ × ℚ × ℚ)) :
    (thomasSolve ((0, 1, 0, val) :: rest)).head? = some val := by
  simp only [thomasSolve, thomasFwd]
  norm_num
  cases h : thomasBack (thomasFwd 0 val rest) with
  | nil => simp [thomasBack, h]
  | cons x xs => simp [thomasBack, h]

/-- A Dirichlet-overwritten last row `(0, 1, 0, val)` forces the last
solution entry to `val`, whatever the earlier rows hold. -/
theorem thomasSolve_dirichlet_last (val : ℚ) (rows : List (ℚ × ℚ × ℚ × ℚ))
    (cp dp : ℚ) :
    (thomasBack (thomasFwd cp dp (rows ++ [(0, 1, 0, val)]))).getLast? =
      some val := by
  induction rows generalizing cp dp with
  | nil =>
      simp [thomasFwd, thomasBack]
  | cons r rest ih =>
      obtain ⟨a, b, c, d⟩ := r
      simp only [List.cons_append, thomasFwd]
      have h := ih (c / (b - a * cp)) ((d - a * dp) / (b - a * cp))
      cases hb : thomasBack (thomasFwd (c / (b - a * cp))
          ((d - a * dp) / (b - a * cp)) (rest ++ [(0, 1, 0, val)])) with
      | nil => simp [hb] at h
      | cons x xs =>
          rw [hb] at h
          simp only [thomasBack, List.append_eq]
          rw [hb]
          simpa [List.getLast?_cons_cons] using h

/-! ## Grids, the differential operator and the ADI schemes -/

/-- A grid array of PDE values over the two state dimensions (spec §3,
"Grid Array"). -/
abbrev Grid (nx nv : ℕ) := Fin nx → Fin nv → ℚ

/-- Value at the next mesh point along dimension 1 (0 outside the grid). -/
def nextX {nx nv : ℕ} (g : Grid nx nv) : Grid nx nv := fun i j =>
  if h : i.val + 1 < nx then g ⟨i.val + 1, h⟩ j else 0

/-- Value at the previous mesh point along dimension 1 (0 outside the grid). -/
def prevX {nx nv : ℕ} (g : Grid nx nv) : Grid nx nv := fun i j =>
  if 0 < i.val then g ⟨i.val - 1, lt_of_le_of_lt (Nat.sub_le _ _) i.isLt⟩ j
  else 0

/-- Value at the next mesh point along dimension 2 (0 outside the grid). -/
def nextV {nx nv : ℕ} (g : Grid nx nv) : Grid nx nv := fun i j =>
  if h : j.val + 1 < nv then g i ⟨j.val + 1, h⟩ else 0

/-- Value at the previous mesh point along dimension 2 (0 outside the grid). -/
def prevV {nx nv : ℕ} (g : Grid nx nv) : Grid nx nv := fun i j =>
  if 0 < j.val then g i ⟨j.val - 1, lt_of_le_of_lt (Nat.sub_le _ _) j.isLt⟩
  else 0

/-- Modelled from the spec: the discrete PDE generator (spec §3 "Operator",
§4.2), decomposed into one tridiagonal sub-operator per dimension (stored
as per-point sub-, main- and super-diagonal coefficients) plus a cross term
(stored as the per-point coefficient of the centred mixed-difference
stencil). The concrete `FdmHestonOp` implementation is not in the
repository. -/
structure FdmLinearOpComposite (nx nv : ℕ) where
  lower1 : Fin nx → Fin nv → ℚ
  diag1 : Fin nx → Fin nv → ℚ
  upper1 : Fin nx → Fin nv → ℚ
  lower2 : Fin nx → Fin nv → ℚ
  diag2 : Fin nx → Fin nv → ℚ
  upper2 : Fin nx → Fin nv → ℚ
  crossCoeff : Fin nx → Fin nv → ℚ

namespace FdmLinearOpComposite

variable {nx nv : ℕ}

/-- Action of the dimension-1 tridiagonal sub-operator. -/
def apply1 (op : FdmLinearOpComposite nx nv) (g : Grid nx nv) : Grid nx nv :=
  fun i j =>
    op.lower1 i j * prevX g i j + op.diag1 i j * g i j +
      op.upper1 i j * nextX g i j

/-- Action of the dimension-2 tridiagonal sub-operator. -/
def apply2 (op : FdmLinearOpComposite nx nv) (g : Grid nx nv) : Grid nx nv :=
  fun i j =>
    op.lower2 i j * prevV g i j + op.diag2 i j * g i j +
      op.upper2 i j * nextV g i j

/-- Action of the explicit cross term: a centred mixed-difference stencil
spanning a 3x3 neighbourhood (spec §4.2), scaled by `crossCoeff`. -/
def applyMixed (op : FdmLinearOpComposite nx nv) (g : Grid nx nv) :
    Grid nx nv :=
  fun i j =>
    op.crossCoeff i j *
      (nextX (nextV g) i j - nextX (prevV g) i j -
        prevX (nextV g) i j + prevX (prevV g) i j)

/-- Action of the full generator `L = L1 + L2 + L12`. -/
def apply (op : FdmLinearOpComposite nx nv) (g : Grid nx nv) : Grid nx nv :=
  op.apply1 g + op.apply2 g + op.applyMixed g

end FdmLinearOpComposite

/-- Side of a grid edge along one dimension. -/
inductive FdmBoundarySide where
  | lowerSide
  | upperSide
deriving DecidableEq, Repr

/-- Modelled from the spec: a Dirichlet boundary condition, a
(dimension, edge, fixed value) triple (spec §3, §4.3). The concrete
`FdmDirichletBoundary` implementation is not in the repository. -/
structure FdmDirichletBoundary where
  direction : Fin 2
  side : FdmBoundarySide
  value : ℚ
deriving DecidableEq, Repr

/-- The boundary-condition set type of the header
(`typedef std::vector<boost::shared_ptr<FdmDirichletBoundary> >`). -/
abbrev BoundaryConditionSet := List FdmDirichletBoundary

/-- Whether grid index `(i, j)` lies on the edge a boundary condition
governs. -/
def bcMatches {nx nv : ℕ} (bc : FdmDirichletBoundary) (i : Fin nx)
    (j : Fin nv) : Bool :=
  match bc.direction.val, bc.side with
  | 0, .lowerSide => i.val == 0
  | 0, .upperSide => i.val == nx - 1
  | _ + 1, .lowerSide => j.val == 0
  | _ + 1, .upperSide => j.val == nv - 1

/-- Modelled from the spec: a Dirichlet condition fixes the solution's
value at its edge (spec glossary): enforcement on the produced grid after
an implicit sweep. -/
def applyDirichletValue {nx nv : ℕ} (bc : FdmDirichletBoundary)
    (g : Grid nx nv) : Grid nx nv := fun i j =>
  if bcMatches bc i j then bc.value else g i j

/-- Enforcement of a whole boundary-condition set on a grid. -/
def applyBoundarySet {nx nv : ℕ} (bcs : BoundaryConditionSet)
    (g : Grid nx nv) : Grid nx nv :=
  bcs.foldl (fun acc bc => applyDirichletValue bc acc) g

/-- Dirichlet row overwrite on a line system of tridiagonal rows: the
condition's edge row becomes `(0, 1, 0, value)` (spec §4.3: overwrite the
corresponding operator row and right-hand side before the implicit
solve). `d` is the dimension the line runs along. -/
def applyDirichletRows (d : Fin 2) (bcs : BoundaryConditionSet)
    (rows : List (ℚ × ℚ × ℚ × ℚ)) : List (ℚ × ℚ × ℚ × ℚ) :=
  bcs.foldl
    (fun acc bc =>
      if bc.direction = d then
        match bc.side with
        | .lowerSide => acc.set 0 (0, 1, 0, bc.value)
        | .upperSide => acc.set (acc.length - 1) (0, 1, 0, bc.value)
      else acc)
    rows

/-- Line system for the dimension-1 implicit solve `(I - w*L1) x = rhs`
at fixed `j`: row `i` is `(-w*lower1, 1 - w*diag1, -w*upper1, rhs i j)`. -/
def rows1 {nx nv : ℕ} (op : FdmLinearOpComposite nx nv) (w : ℚ)
    (rhs : Grid nx nv) (j : Fin nv) : List (ℚ × ℚ × ℚ × ℚ) :=
  List.ofFn fun i : Fin nx =>
    (-(w * op.lower1 i j), 1 - w * op.diag1 i j, -(w * op.upper1 i j),
      rhs i j)

/-- Line system for the dimension-2 implicit solve at fixed `i`. -/
def rows2 {nx nv : ℕ} (op : FdmLinearOpComposite nx nv) (w : ℚ)
    (rhs : Grid nx nv) (i : Fin nx) : List (ℚ × ℚ × ℚ × ℚ) :=
  List.ofFn fun j : Fin nv =>
    (-(w * op.lower2 i j), 1 - w * op.diag2 i j, -(w * op.upper2 i j),
      rhs i j)

/-- Modelled from the spec: the dimension-1 implicit half-step. The
Dirichlet conditions overwrite operator rows and right-hand side before
the tridiagonal solve (spec §4.3), and the produced grid carries the
prescribed edge values (Dirichlet fixes the solution value at the edge,
spec glossary). -/
def solveSplitting1 {nx nv : ℕ} (op : FdmLinearOpComposite nx nv) (w : ℚ)
    (bcs : BoundaryConditionSet) (rhs : Grid nx nv) : Grid nx nv :=
  applyBoundarySet bcs fun i j =>
    (thomasSolve (applyDirichletRows 0 bcs (rows1 op w rhs j))).getD i.val 0

/-- Modelled from the spec: the dimension-2 implicit half-step, as the
dimension-1 one. -/
def solveSplitting2 {nx nv : ℕ} (op : FdmLinearOpComposite nx nv) (w : ℚ)
    (bcs : BoundaryConditionSet) (rhs : Grid nx nv) : Grid nx nv :=
  applyBoundarySet bcs fun i j =>
    (thomasSolve (applyDirichletRows 1 bcs (rows2 op w rhs i))).getD j.val 0

/-- Modelled from the spec (§4.5, Douglas scheme): one explicit
full-operator predictor followed by one implicit correction per dimension,
blended by the implicit weight `theta`. -/
def douglasStep {nx nv : ℕ} (op : FdmLinearOpComposite nx nv)
    (theta dt : ℚ) (bcs : BoundaryConditionSet) (u : Grid nx nv) :
    Grid nx nv :=
  let y0 := u + dt • op.apply u
  let y1 := solveSplitting1 op (theta * dt) bcs (y0 - (theta * dt) • op.apply1 u)
  let y2 := solveSplitting2 op (theta * dt) bcs (y1 - (theta * dt) • op.apply2 u)
  y2

/-- Modelled from the spec (§4.5, Craig-Sneyd scheme): the Douglas stages
followed by an explicit correction built from the difference of cross-term
evaluations at consecutive stages, weighted by `mu`, before the final
implicit corrections. -/
def craigSneydStep {nx nv : ℕ} (op : FdmLinearOpComposite nx nv)
    (theta mu dt : ℚ) (bcs : BoundaryConditionSet) (u : Grid nx nv) :
    Grid nx nv :=
  let y0 := u + dt • op.apply u
  let y1 := solveSplitting1 op (theta * dt) bcs (y0 - (theta * dt) • op.apply1 u)
  let y2 := solveSplitting2 op (theta * dt) bcs (y1 - (theta * dt) • op.apply2 u)
  let z0 := y0 + (mu * dt) • (op.applyMixed y2 - op.applyMixed u)
  let z1 := solveSplitting1 op (theta * dt) bcs (z0 - (theta * dt) • op.apply1 u)
  let z2 := solveSplitting2 op (theta * dt) bcs (z1 - (theta * dt) • op.apply2 u)
  z2

/-- Modelled from the spec (§4.5, Hundsdorfer-Verwer scheme): the Douglas
predictor followed by a second corrector stage that re-evaluates the
explicit operator at the predicted value and blends it with the original
explicit value before a second implicit correction sweep. -/
def hundsdorferStep {nx nv : ℕ} (op : FdmLinearOpComposite nx nv)
    (theta mu dt : ℚ) (bcs : BoundaryConditionSet) (u : Grid nx nv) :
    Grid nx nv :=
  let y0 := u + dt • op.apply u
  let y1 := solveSplitting1 op (theta * dt) bcs (y0 - (theta * dt) • op.apply1 u)
  let y2 := solveSplitting2 op (theta * dt) bcs (y1 - (theta * dt) • op.apply2 u)
  let z0 := y0 + (mu * dt) • (op.apply y2 - op.apply u)
  let z1 := solveSplitting1 op (theta * dt) bcs (z0 - (theta * dt) • op.apply1 y2)
  let z2 := solveSplitting2 op (theta * dt) bcs (z1 - (theta * dt) • op.apply2 y2)
  z2

/-- One time step of the selected scheme variant. -/
def schemeStep {nx nv : ℕ} (type : FdmSchemeType)
    (op : FdmLinearOpComposite nx nv) (theta mu dt : ℚ)
    (bcs : BoundaryConditionSet) (u : Grid nx nv) : Grid nx nv :=
  match type with
  | .DouglasScheme => douglasStep op theta dt bcs u
  | .CraigSneydScheme => craigSneydStep op theta mu dt bcs u
  | .HundsdorferScheme => hundsdorferStep op theta mu dt bcs u

/-- `n` backward time steps of the selected scheme. -/
def evolve {nx nv : ℕ} (type : FdmSchemeType)
    (op : FdmLinearOpComposite nx nv) (theta mu dt : ℚ)
    (bcs : BoundaryConditionSet) : ℕ → Grid nx nv → Grid nx nv
  | 0, u => u
  | n + 1, u => evolve type op theta mu dt bcs n (schemeStep type op theta mu dt bcs u)

/-- Modelled from the spec (§6): the stochastic-process description, with
the Heston parameters exposing drift and diffusion coefficients per
dimension and the cross-correlation coefficient `rho`. The concrete
`HestonProcess` implementation is not in the repository. -/
structure HestonProcessDesc where
  v0 : ℚ
  kappa : ℚ
  theta : ℚ
  sigma : ℚ
  rho : ℚ
  r : ℚ
  q : ℚ
deriving DecidableEq, Repr

/-- Mesh spacing below point `i` of a one-dimensional mesh (0 at the lower
edge). -/
def hMinus {n : ℕ} (mesh : Fin n → ℚ) (i : Fin n) : ℚ :=
  if 0 < i.val then
    mesh i - mesh ⟨i.val - 1, lt_of_le_of_lt (Nat.sub_le _ _) i.isLt⟩
  else 0

/-- Mesh spacing above point `i` of a one-dimensional mesh (0 at the upper
edge). -/
def hPlus {n : ℕ} (mesh : Fin n → ℚ) (i : Fin n) : ℚ :=
  if h : i.val + 1 < n then mesh ⟨i.val + 1, h⟩ - mesh i else 0

/-- Whether `i` is an interior index of a mesh of length `n`. -/
def interior {n : ℕ} (i : Fin n) : Bool :=
  0 < i.val && i.val + 1 < n

/-- Modelled from the spec (§4.2): the discrete Heston generator on the
given meshes. Dimension 1 is log-spot with drift `r - q - v/2` and
diffusion `v/2`; dimension 2 is the variance with drift
`kappa*(theta - v)` and diffusion `sigma^2*v/2`; each dimension carries
half of the `-r` identity term; the cross term has coefficient
`rho*sigma*v` on the centred mixed-difference stencil. Central
differences on the non-uniform spacings; edge rows carry only the
identity part (they are overwritten by boundary conditions). -/
def mkFdmHestonOp {nx nv : ℕ} (p : HestonProcessDesc) (xMesh : Fin nx → ℚ)
    (vMesh : Fin nv → ℚ) : FdmLinearOpComposite nx nv :=
  let cm := fun {n : ℕ} (mesh : Fin n → ℚ) (i : Fin n) (mu d : ℚ) =>
    if interior i then
      (2 * d - mu * hPlus mesh i) /
        (hMinus mesh i * (hMinus mesh i + hPlus mesh i))
    else 0
  let cp := fun {n : ℕ} (mesh : Fin n → ℚ) (i : Fin n) (mu d : ℚ) =>
    if interior i then
      (2 * d + mu * hMinus mesh i) /
        (hPlus mesh i * (hMinus mesh i + hPlus mesh i))
    else 0
  let c0 := fun {n : ℕ} (mesh : Fin n → ℚ) (i : Fin n) (mu d : ℚ) =>
    if interior i then
      (-(2 * d) + mu * (hPlus mesh i - hMinus mesh i)) /
        (hMinus mesh i * hPlus mesh i)
    else 0
  { lower1 := fun i j =>
      cm xMesh i (p.r - p.q - vMesh j / 2) (vMesh j / 2)
    diag1 := fun i j =>
      c0 xMesh i (p.r - p.q - vMesh j / 2) (vMesh j / 2) - p.r / 2
    upper1 := fun i j =>
      cp xMesh i (p.r - p.q - vMesh j / 2) (vMesh j / 2)
    lower2 := fun _ j =>
      cm vMesh j (p.kappa * (p.theta - vMesh j)) (p.sigma ^ 2 * vMesh j / 2)
    diag2 := fun _ j =>
      c0 vMesh j (p.kappa * (p.theta - vMesh j)) (p.sigma ^ 2 * vMesh j / 2) -
        p.r / 2
    upper2 := fun _ j =>
      cp vMesh j (p.kappa * (p.theta - vMesh j)) (p.sigma ^ 2 * vMesh j / 2)
    crossCoeff := fun i j =>
      p.rho *
        (if interior i && interior j then
          p.sigma * vMesh j /
            ((hMinus xMesh i + hPlus xMesh i) * (hMinus vMesh j + hPlus vMesh j))
        else 0) }

/-! ## Interpolation / query layer and the lazy solver -/

/-- Mesh value at a plain natural index (0 out of range). -/
def meshGetD {n : ℕ} (mesh : Fin n → ℚ) (k : ℕ) : ℚ :=
  if h : k < n then mesh ⟨k, h⟩ else 0

/-- Grid value at plain natural indices (0 out of range). -/
def gridGetD {nx nv : ℕ} (g : Grid nx nv) (a b : ℕ) : ℚ :=
  if h : a < nx ∧ b < nv then g ⟨a, h.1⟩ ⟨b, h.2⟩ else 0

/-- Largest index whose mesh coordinate does not exceed `x` (0 if none). -/
def lastIndexLE {n : ℕ} (mesh : Fin n → ℚ) (x : ℚ) : ℕ :=
  (List.range n).foldl (fun acc k => if meshGetD mesh k ≤ x then k else acc) 0

/-- Index of the mesh cell containing `x` (clamped to the last cell). -/
def cellIndex {n : ℕ} (mesh : Fin n → ℚ) (x : ℚ) : ℕ :=
  min (lastIndexLE mesh x) (n - 2)

/-- Modelled from the spec (§4.7): the smooth surface built over the fresh
grid. Stands in for the bicubic spline (whose implementation is not in the
repository) as a piecewise-bilinear interpolant; no claim proved here
depends on the interpolant's smoothness beyond it being a deterministic
function of the grid. -/
def interpolate {nx nv : ℕ} (xMesh : Fin nx → ℚ) (vMesh : Fin nv → ℚ)
    (g : Grid nx nv) (x y : ℚ) : ℚ :=
  let kx := cellIndex xMesh x
  let kv := cellIndex vMesh y
  let x0 := meshGetD xMesh kx
  let x1 := meshGetD xMesh (kx + 1)
  let y0 := meshGetD vMesh kv
  let y1 := meshGetD vMesh (kv + 1)
  let tx := if x1 - x0 = 0 then 0 else (x - x0) / (x1 - x0)
  let tv := if y1 - y0 = 0 then 0 else (y - y0) / (y1 - y0)
  (1 - tx) * (1 - tv) * gridGetD g kx kv +
    tx * (1 - tv) * gridGetD g (kx + 1) kv +
    (1 - tx) * tv * gridGetD g kx (kv + 1) +
    tx * tv * gridGetD g (kx + 1) (kv + 1)

/-- The spacing of the mesh cell containing `x` (the nearest grid
spacing used by the derivative-step guard). -/
def nearestSpacing {n : ℕ} (mesh : Fin n → ℚ) (x : ℚ) : ℚ :=
  meshGetD mesh (cellIndex mesh x + 1) - meshGetD mesh (cellIndex mesh x)

/-- Query and configuration errors surfaced to the caller (spec §7). -/
inductive FdmError where
  | outOfDomain
  | invalidEps
deriving DecidableEq, Repr

/-- Modelled from the spec: the solver's state (header members plus the
lazy-object staleness flag). Configuration members are set at construction;
`calculated`, `resultValues` and `snapshotValues` form the mutable result
cache (`resultValues_`, `interpolation_` and the snapshot recorded inside
`thetaCondition_`). The snapshot step condition (`thetaCondition_`) is
modelled by the number of backward steps after which the snapshot of the
grid is recorded. -/
structure FdmHestonSolverState (nx nv : ℕ) where
  process : HestonProcessDesc
  xMesh : Fin nx → ℚ
  vMesh : Fin nv → ℚ
  bcSet : BoundaryConditionSet
  payoff : ℚ → ℚ → ℚ
  maturity : ℚ
  timeSteps : ℕ
  snapshotStep : ℕ
  schemeType : FdmSchemeType
  theta : ℚ
  mu : ℚ
  calculated : Bool
  resultValues : Grid nx nv
  snapshotValues : Grid nx nv

namespace FdmHestonSolverState

variable {nx nv : ℕ}

/-- Modelled from the spec (§4.6): the recomputation triggered on a query
while stale: build the operator, initialise the terminal grid from the
payoff at every mesh point, iterate the scheme backward over the
equally-spaced time steps (the snapshot condition recording the grid at
its trigger time), cache the result and transition to fresh. -/
def performCalculations (s : FdmHestonSolverState nx nv) :
    FdmHestonSolverState nx nv :=
  let op := mkFdmHestonOp s.process s.xMesh s.vMesh
  let dt := s.maturity / s.timeSteps
  let u0 : Grid nx nv := fun i j => s.payoff (s.xMesh i) (s.vMesh j)
  { s with
    calculated := true
    resultValues := evolve s.schemeType op s.theta s.mu dt s.bcSet s.timeSteps u0
    snapshotValues :=
      evolve s.schemeType op s.theta s.mu dt s.bcSet s.snapshotStep u0 }

/-- The lazy-object `calculate` entry point: recompute only while stale. -/
def calculate (s : FdmHestonSolverState nx nv) : FdmHestonSolverState nx nv :=
  if s.calculated then s else performCalculations s

/-- The time of the recorded snapshot, measured from the valuation date
(the terminal grid lives at time 0, the snapshot `snapshotStep` backward
steps after maturity). -/
def snapshotTime (s : FdmHestonSolverState nx nv) : ℚ :=
  s.maturity - s.snapshotStep * (s.maturity / s.timeSteps)

/-- Whether `(x, y)` lies inside the meshed domain. -/
def inDomain (s : FdmHestonSolverState nx nv) (x y : ℚ) : Bool :=
  decide (meshGetD s.xMesh 0 ≤ x) && decide (x ≤ meshGetD s.xMesh (nx - 1)) &&
    decide (meshGetD s.vMesh 0 ≤ y) && decide (y ≤ meshGetD s.vMesh (nv - 1))

/-- `valueAt` (header line 58): interpolated price at `(x, y)`; domain
error outside the meshed domain; triggers recomputation while stale. The
returned state is the solver after the query (`valueAt` is `const`: only
the mutable cache may differ). -/
def valueAt (s : FdmHestonSolverState nx nv) (x y : ℚ) :
    Except FdmError ℚ × FdmHestonSolverState nx nv :=
  let t := calculate s
  (if inDomain t x y then
      .ok (interpolate t.xMesh t.vMesh t.resultValues x y)
    else .error .outOfDomain, t)

/-- `deltaAt` (header line 59): centred first difference of the
interpolated surface with step `eps`, guarded against `eps` larger than
half the nearest grid spacing. -/
def deltaAt (s : FdmHestonSolverState nx nv) (x y eps : ℚ) :
    Except FdmError ℚ × FdmHestonSolverState nx nv :=
  let t := calculate s
  (if ¬ (0 < eps ∧ eps ≤ nearestSpacing t.xMesh x / 2) then
      .error .invalidEps
    else if inDomain t (x - eps) y ∧ inDomain t (x + eps) y then
      .ok ((interpolate t.xMesh t.vMesh t.resultValues (x + eps) y -
            interpolate t.xMesh t.vMesh t.resultValues (x - eps) y) /
           (2 * eps))
    else .error .outOfDomain, t)

/-- `gammaAt` (header line 60): centred second difference of the
interpolated surface with step `eps`, with the same guard as `deltaAt`. -/
def gammaAt (s : FdmHestonSolverState nx nv) (x y eps : ℚ) :
    Except FdmError ℚ × FdmHestonSolverState nx nv :=
  let t := calculate s
  (if ¬ (0 < eps ∧ eps ≤ nearestSpacing t.xMesh x / 2) then
      .error .invalidEps
    else if inDomain t (x - eps) y ∧ inDomain t (x + eps) y then
      .ok ((interpolate t.xMesh t.vMesh t.resultValues (x + eps) y -
            2 * interpolate t.xMesh t.vMesh t.resultValues x y +
            interpolate t.xMesh t.vMesh t.resultValues (x - eps) y) /
           eps ^ 2)
    else .error .outOfDomain, t)

/-- `thetaAt` (header line 61): the time derivative from the recorded
snapshot grid and the terminal grid, with no re-solving. -/
def thetaAt (s : FdmHestonSolverState nx nv) (x y : ℚ) :
    Except FdmError ℚ × FdmHestonSolverState nx nv :=
  let t := calculate s
  (if inDomain t x y then
      .ok ((interpolate t.xMesh t.vMesh t.snapshotValues x y -
            interpolate t.xMesh t.vMesh t.resultValues x y) / snapshotTime t)
    else .error .outOfDomain, t)

end FdmHestonSolverState

/-! ## Construction and configuration validation -/

/-- Configuration errors detected at solver construction (spec §4.5
failure cases and §7 taxonomy). -/
inductive ConfigError where
  | invalidPointCount
  | nonMonotoneMesh
  | nonPositiveDiffusion
  | nonPositiveTimeStep
deriving DecidableEq, Repr

/-- A strictly increasing one-dimensional mesh. -/
def strictlyIncreasing {n : ℕ} (mesh : Fin n → ℚ) : Prop :=
  List.Chain' (· < ·) (List.ofFn mesh)

instance {n : ℕ} (mesh : Fin n → ℚ) : Decidable (strictlyIncreasing mesh) :=
  inferInstanceAs (Decidable (List.Chain' _ _))

/-- The configuration checks of spec §4.5 and §7: at least 3 mesh points
per dimension, strictly increasing meshes, positive diffusion parameters
and a positive time step. -/
def validConfig {nx nv : ℕ} (p : HestonProcessDesc) (xMesh : Fin nx → ℚ)
    (vMesh : Fin nv → ℚ) (maturity : ℚ) (timeSteps : ℕ) : Prop :=
  3 ≤ nx ∧ 3 ≤ nv ∧ strictlyIncreasing xMesh ∧ strictlyIncreasing vMesh ∧
    0 < p.sigma ∧ 0 < p.v0 ∧ 0 < maturity ∧ 0 < timeSteps

instance {nx nv : ℕ} (p : HestonProcessDesc) (xMesh : Fin nx → ℚ)
    (vMesh : Fin nv → ℚ) (maturity : ℚ) (timeSteps : ℕ) :
    Decidable (validConfig p xMesh vMesh maturity timeSteps) :=
  inferInstanceAs (Decidable (_ ∧ _))

/-- The freshly constructed (stale) solver state holding the constructor
arguments unchanged. -/
def initialState {nx nv : ℕ} (p : HestonProcessDesc) (xMesh : Fin nx → ℚ)
    (vMesh : Fin nv → ℚ) (bcs : BoundaryConditionSet) (payoff : ℚ → ℚ → ℚ)
    (maturity : ℚ) (timeSteps snapshotStep : ℕ) (type : FdmSchemeType)
    (theta mu : ℚ) : FdmHestonSolverState nx nv :=
  { process := p
    xMesh := xMesh
    vMesh := vMesh
    bcSet := bcs
    payoff := payoff
    maturity := maturity
    timeSteps := timeSteps
    snapshotStep := snapshotStep
    schemeType := type
    theta := theta
    mu := mu
    calculated := false
    resultValues := fun _ _ => 0
    snapshotValues := fun _ _ => 0 }

/-- Modelled from the spec: the `FdmHestonSolver` constructor (header
lines 47-56), with eager configuration validation (spec §4.5: non-monotone
mesh, non-positive diffusion coefficients or a non-positive time step are
detected at solver construction, not mid-sweep). -/
def mkFdmHestonSolver {nx nv : ℕ} (p : HestonProcessDesc)
    (xMesh : Fin nx → ℚ) (vMesh : Fin nv → ℚ) (bcs : BoundaryConditionSet)
    (payoff : ℚ → ℚ → ℚ) (maturity : ℚ) (timeSteps snapshotStep : ℕ)
    (type : FdmSchemeType) (theta mu : ℚ) :
    Except ConfigError (FdmHestonSolverState nx nv) :=
  if ¬ (3 ≤ nx ∧ 3 ≤ nv) then .error .invalidPointCount
  else if ¬ (strictlyIncreasing xMesh ∧ strictlyIncreasing vMesh) then
    .error .nonMonotoneMesh
  else if ¬ (0 < p.sigma ∧ 0 < p.v0) then .error .nonPositiveDiffusion
  else if ¬ (0 < maturity ∧ 0 < timeSteps) then .error .nonPositiveTimeStep
  else .ok (initialState p xMesh vMesh bcs payoff maturity timeSteps
    snapshotStep type theta mu)

/-- The constructor with its three defaulted arguments
(`type = HundsdorferScheme, theta = 0.3, mu = 0.5`, header lines 55-56). -/
def mkFdmHestonSolverWithDefaults {nx nv : ℕ} (p : HestonProcessDesc)
    (xMesh : Fin nx → ℚ) (vMesh : Fin nv → ℚ) (bcs : BoundaryConditionSet)
    (payoff : ℚ → ℚ → ℚ) (maturity : ℚ) (timeSteps snapshotStep : ℕ) :
    Except ConfigError (FdmHestonSolverState nx nv) :=
  mkFdmHestonSolver p xMesh vMesh bcs payoff maturity timeSteps snapshotStep
    defaultSchemeType defaultTheta defaultMu

/-! ## Mesher -/

/-- Modelled from the spec (§4.1): rational surrogate for the inverse
hyperbolic-sine change of variables: an odd, strictly increasing map whose
derivative is smallest at 0, so that grid density is highest near the
concentration point. -/
def sinhSurrogate (t : ℚ) : ℚ := t + t ^ 3

/-- Modelled from the spec (§4.1): the concentrating mesher. Uniform
coordinates in the transformed variable are mapped through the surrogate
change of variables, producing a strictly increasing sequence of the
requested length whose density is highest near the concentration point
`cPoint`. -/
def concentratingMesh (xMin xMax cPoint : ℚ) (n : ℕ) : List ℚ :=
  List.ofFn (n := n) fun i =>
    cPoint + (xMax - xMin) / 4 *
      sinhSurrogate (-1 + 2 * (i.val : ℚ) / ((n : ℚ) - 1))

/-! ## Helper lemmas -/

/-- The configuration part of two solver states coincides (everything but
the mutable result cache). -/
def sameConfig {nx nv : ℕ} (s t : FdmHestonSolverState nx nv) : Prop :=
  t.process = s.process ∧ t.xMesh = s.xMesh ∧ t.vMesh = s.vMesh ∧
    t.bcSet = s.bcSet ∧ t.payoff = s.payoff ∧ t.maturity = s.maturity ∧
    t.timeSteps = s.timeSteps ∧ t.snapshotStep = s.snapshotStep ∧
    t.schemeType = s.schemeType ∧ t.theta = s.theta ∧ t.mu = s.mu

theorem sameConfig_calculate {nx nv : ℕ} (s : FdmHestonSolverState nx nv) :
    sameConfig s (s.calculate) := by
  unfold FdmHestonSolverState.calculate
  by_cases h : s.calculated <;>
    simp [h, FdmHestonSolverState.performCalculations, sameConfig]

theorem applyBoundarySet_of_no_match {nx nv : ℕ} (bcs : BoundaryConditionSet)
    (g : Grid nx nv) (i : Fin nx) (j : Fin nv)
    (h : ∀ bc ∈ bcs, bcMatches bc i j = false) :
    applyBoundarySet bcs g i j = g i j := by
  induction bcs generalizing g with
  | nil => rfl
  | cons b rest ih =>
      have hb := h b (by simp)
      have hrec := ih (applyDirichletValue b g) fun bc hm => h bc (by simp [hm])
      simp only [applyBoundarySet, List.foldl_cons] at *
      rw [hrec]
      simp [applyDirichletValue, hb]

theorem applyBoundarySet_match {nx nv : ℕ} (bcs : BoundaryConditionSet)
    (g : Grid nx nv) (i : Fin nx) (j : Fin nv) (val : ℚ)
    (hex : ∃ bc ∈ bcs, bcMatches bc i j = true)
    (hval : ∀ bc ∈ bcs, bcMatches bc i j = true → bc.value = val) :
    applyBoundarySet bcs g i j = val := by
  induction bcs generalizing g with
  | nil => simp at hex
  | cons b rest ih =>
      have hgoal : applyBoundarySet (b :: rest) g i j =
          applyBoundarySet rest (applyDirichletValue b g) i j := rfl
      rw [hgoal]
      by_cases hex' : ∃ bc ∈ rest, bcMatches bc i j = true
      · exact ih (applyDirichletValue b g) hex'
          fun bc hm hb => hval bc (List.mem_cons_of_mem b hm) hb
      · push_neg at hex'
        have hbm : bcMatches b i j = true := by
          obtain ⟨bc, hbc, hm⟩ := hex
          rcases List.mem_cons.mp hbc with h | h
          · exact h ▸ hm
          · exact absurd hm (by simpa using hex' bc h)
        have hnone : ∀ bc ∈ rest, bcMatches bc i j = false := fun bc hbc => by
          simpa using hex' bc hbc
        rw [applyBoundarySet_of_no_match rest _ i j hnone]
        simpa [applyDirichletValue, hbm] using
          hval b (List.mem_cons_self b rest) hbm

theorem schemeStep_boundary {nx nv : ℕ} (type : FdmSchemeType)
    (op : FdmLinearOpComposite nx nv) (theta mu dt : ℚ)
    (bcs : BoundaryConditionSet) (u : Grid nx nv) (i : Fin nx) (j : Fin nv)
    (val : ℚ) (hex : ∃ bc ∈ bcs, bcMatches bc i j = true)
    (hval : ∀ bc ∈ bcs, bcMatches bc i j = true → bc.value = val) :
    schemeStep type op theta mu dt bcs u i j = val := by
  cases type <;>
    simp only [schemeStep, hundsdorferStep, douglasStep, craigSneydStep,
      solveSplitting2] <;>
    exact applyBoundarySet_match bcs _ i j val hex hval

theorem applyMixed_of_rho_zero {nx nv : ℕ} (p : HestonProcessDesc)
    (hrho : p.rho = 0) (xm : Fin nx → ℚ) (vm : Fin nv → ℚ) (g : Grid nx nv) :
    (mkFdmHestonOp p xm vm).applyMixed g = fun _ _ => 0 := by
  funext i j
  simp [mkFdmHestonOp, FdmLinearOpComposite.applyMixed, hrho]

theorem craigSneyd_step_eq_douglas {nx nv : ℕ} (p : HestonProcessDesc)
    (hrho : p.rho = 0) (xm : Fin nx → ℚ) (vm : Fin nv → ℚ)
    (theta mu dt : ℚ) (bcs : BoundaryConditionSet) (u : Grid nx nv) :
    craigSneydStep (mkFdmHestonOp p xm vm) theta mu dt bcs u =
      douglasStep (mkFdmHestonOp p xm vm) theta dt bcs u := by
  have hmix := applyMixed_of_rho_zero p hrho xm vm
  simp only [craigSneydStep, douglasStep, hmix, sub_self, smul_zero, add_zero]

/-- Concrete fixture: an uncorrelated Heston-like process
(`v0 = 1, kappa = 0, theta = 1, sigma = 1, rho = 0, r = 0, q = 0`). -/
def fixtureProcess : HestonProcessDesc := ⟨1, 0, 1, 1, 0, 0, 0⟩

/-- Concrete fixture: uniform 3-point log-spot mesh `0, 1, 2`. -/
def fixtureXMesh : Fin 3 → ℚ := fun i => (i.val : ℚ)

/-- Concrete fixture: uniform 3-point variance mesh `1, 2, 3`. -/
def fixtureVMesh : Fin 3 → ℚ := fun j => (j.val : ℚ) + 1

/-- Concrete fixture: a terminal value grid. -/
def fixtureGrid : Grid 3 3 := fun i j => (i.val : ℚ) * (j.val : ℚ) + 1

/-! ## Claim theorems -/

/-- C2: The scheme selection is exactly the three enumerated variants
(Hundsdorfer-Verwer, Douglas, Craig-Sneyd) with two real tuning
parameters, and the constructor defaults are `type = HundsdorferScheme`,
`theta = 0.3` and `mu = 0.5`. -/
theorem scheme_enum_and_constructor_defaults :
    Fintype.card FdmSchemeType = 3 ∧
    defaultSchemeType = FdmSchemeType.HundsdorferScheme ∧
    defaultTheta = 3 / 10 ∧ defaultMu = 1 / 2 ∧
    ∀ (nx nv : ℕ) (p : HestonProcessDesc) (xm : Fin nx → ℚ)
      (vm : Fin nv → ℚ) (bcs : BoundaryConditionSet) (payoff : ℚ → ℚ → ℚ)
      (mat : ℚ) (ts ss : ℕ),
      mkFdmHestonSolverWithDefaults p xm vm bcs payoff mat ts ss =
        mkFdmHestonSolver p xm vm bcs payoff mat ts ss
          FdmSchemeType.HundsdorferScheme (3 / 10) (1 / 2) :=
  ⟨rfl, rfl, rfl, rfl, fun _ _ _ _ _ _ _ _ _ _ => rfl⟩

/-- C10: every public query (`valueAt`, `deltaAt`, `gammaAt`, `thetaAt`)
is declared `const` in the header, the only `mutable` members are
`resultValues_` and `interpolation_`, and in the behavioural model each
query leaves the whole configuration unchanged — only the result cache
may change. -/
theorem queries_const_and_frame {nx nv : ℕ} (s : FdmHestonSolverState nx nv)
    (x y eps : ℚ) :
    ((fdmHestonSolverMembers.filter
        fun m => m.2 = CppQualifier.mutableMember).map Prod.fst =
      ["resultValues_", "interpolation_"]) ∧
    fdmHestonSolverQueryMethods.all Prod.snd = true ∧
    sameConfig s (s.valueAt x y).2 ∧ sameConfig s (s.deltaAt x y eps).2 ∧
    sameConfig s (s.gammaAt x y eps).2 ∧ sameConfig s (s.thetaAt x y).2 :=
  ⟨rfl, rfl, sameConfig_calculate s, sameConfig_calculate s,
    sameConfig_calculate s, sameConfig_calculate s⟩

/-- C1: while the solver is fresh, a `valueAt` query returns without
re-solving (the state is unchanged), two consecutive `valueAt` queries at
the same point return bit-identical results, and the recomputation
triggered while stale is idempotent. -/
theorem lazy_fresh_cache_idempotent {nx nv : ℕ}
    (s : FdmHestonSolverState nx nv) (x y : ℚ) (h : s.calculated = true) :
    (s.valueAt x y).2 = s ∧
    ((s.valueAt x y).2.valueAt x y).1 = (s.valueAt x y).1 ∧
    ∀ t : FdmHestonSolverState nx nv,
      t.performCalculations.performCalculations = t.performCalculations := by
  have hcalc : s.calculate = s := by
    simp [FdmHestonSolverState.calculate, h]
  refine ⟨hcalc, ?_, fun t => rfl⟩
  simp only [FdmHestonSolverState.valueAt, hcalc]

/-- C4: Dirichlet boundary conditions: overwriting an edge row of a
tridiagonal system with `(0, 1, 0, value)` forces the corresponding
solution entry to `value` through the implicit solve, and consequently,
for every scheme variant, after any positive number of time steps the
solution value at a boundary mesh index equals the prescribed value of
its (consistently-valued) boundary condition. -/
theorem dirichlet_boundary_enforced {nx nv : ℕ} (type : FdmSchemeType)
    (op : FdmLinearOpComposite nx nv) (theta mu dt : ℚ)
    (bcs : BoundaryConditionSet) (u : Grid nx nv) (n : ℕ) (hn : 1 ≤ n)
    (bc : FdmDirichletBoundary) (hmem : bc ∈ bcs) (i : Fin nx) (j : Fin nv)
    (hm : bcMatches bc i j = true)
    (hval : ∀ bc' ∈ bcs, bcMatches bc' i j = true → bc'.value = bc.value) :
    (∀ (val : ℚ) (rest : List (ℚ × ℚ × ℚ × ℚ)),
      (thomasSolve ((0, 1, 0, val) :: rest)).head? = some val) ∧
    (∀ (val : ℚ) (rows : List (ℚ × ℚ × ℚ × ℚ)),
      (thomasSolve (rows ++ [(0, 1, 0, val)])).getLast? = some val) ∧
    evolve type op theta mu dt bcs n u i j = bc.value := by
  refine ⟨thomasSolve_dirichlet_head,
    fun val rows => thomasSolve_dirichlet_last val rows 0 0, ?_⟩
  induction n generalizing u with
  | zero => omega
  | succ k ih =>
      cases k with
      | zero =>
          simpa [evolve] using
            schemeStep_boundary type op theta mu dt bcs u i j bc.value
              ⟨bc, hmem, hm⟩ hval
      | succ m =>
          have hstep : evolve type op theta mu dt bcs (m + 1 + 1) u =
              evolve type op theta mu dt bcs (m + 1)
                (schemeStep type op theta mu dt bcs u) := rfl
          rw [hstep]
          exact ih (schemeStep type op theta mu dt bcs u) (by omega)

/-- C5 (amended): for a process with zero cross-correlation the cross term
is a no-op (the mixed-difference operator vanishes identically) and the
Craig-Sneyd variant coincides exactly with the Douglas variant, i.e. the
classical ADI method, for any number of steps. (The Hundsdorfer-Verwer
corrector stage re-evaluates the full operator, not only the cross term,
and is not covered: see the counterexample.) -/
theorem zero_correlation_craigSneyd_eq_douglas {nx nv : ℕ}
    (p : HestonProcessDesc) (hrho : p.rho = 0) (xm : Fin nx → ℚ)
    (vm : Fin nv → ℚ) (theta mu dt : ℚ) (bcs : BoundaryConditionSet)
    (n : ℕ) (u : Grid nx nv) :
    (∀ g : Grid nx nv,
      (mkFdmHestonOp p xm vm).applyMixed g = fun _ _ => 0) ∧
    evolve .CraigSneydScheme (mkFdmHestonOp p xm vm) theta mu dt bcs n u =
      evolve .DouglasScheme (mkFdmHestonOp p xm vm) theta mu dt bcs n u := by
  refine ⟨applyMixed_of_rho_zero p hrho xm vm, ?_⟩
  induction n generalizing u with
  | zero => rfl
  | succ k ih =>
      have h1 : evolve .CraigSneydScheme (mkFdmHestonOp p xm vm) theta mu dt
          bcs (k + 1) u =
          evolve .CraigSneydScheme (mkFdmHestonOp p xm vm) theta mu dt bcs k
            (craigSneydStep (mkFdmHestonOp p xm vm) theta mu dt bcs u) := rfl
      have h2 : evolve .DouglasScheme (mkFdmHestonOp p xm vm) theta mu dt
          bcs (k + 1) u =
          evolve .DouglasScheme (mkFdmHestonOp p xm vm) theta mu dt bcs k
            (douglasStep (mkFdmHestonOp p xm vm) theta dt bcs u) := rfl
      rw [h1, h2, craigSneyd_step_eq_douglas p hrho xm vm theta mu dt bcs u]
      exact ih _

/-- Witness for the amended C5 theorem at a concrete uncorrelated
configuration. -/
theorem zero_correlation_craigSneyd_eq_douglas_witness :
    fixtureProcess.rho = 0 ∧
    ((∀ g : Grid 3 3,
        (mkFdmHestonOp fixtureProcess fixtureXMesh fixtureVMesh).applyMixed
          g = fun _ _ => 0) ∧
      evolve .CraigSneydScheme
          (mkFdmHestonOp fixtureProcess fixtureXMesh fixtureVMesh) (3 / 10)
          (1 / 2) 1 [] 2 fixtureGrid =
        evolve .DouglasScheme
          (mkFdmHestonOp fixtureProcess fixtureXMesh fixtureVMesh) (3 / 10)
          (1 / 2) 1 [] 2 fixtureGrid) :=
  ⟨rfl, zero_correlation_craigSneyd_eq_douglas fixtureProcess rfl fixtureXMesh
    fixtureVMesh (3 / 10) (1 / 2) 1 [] 2 fixtureGrid⟩

set_option maxHeartbeats 4000000 in
/-- C5 (counterexample): at zero cross-correlation the Hundsdorfer-Verwer
variant does not agree with the Douglas variant: on a concrete
uncorrelated configuration one backward step produces different values at
an interior sample point (the HV corrector stage re-evaluates the whole
operator, which does not vanish with the cross term). -/
theorem hundsdorfer_disagrees_at_zero_correlation :
    fixtureProcess.rho = 0 ∧
    evolve .HundsdorferScheme
        (mkFdmHestonOp fixtureProcess fixtureXMesh fixtureVMesh) (3 / 10)
        (1 / 2) 1 [] 1 fixtureGrid 1 1 ≠
      evolve .DouglasScheme
        (mkFdmHestonOp fixtureProcess fixtureXMesh fixtureVMesh) (3 / 10)
        (1 / 2) 1 [] 1 fixtureGrid 1 1 := by
  refine ⟨rfl, ?_⟩
  norm_num [evolve, schemeStep, douglasStep, hundsdorferStep, solveSplitting1,
    solveSplitting2, applyBoundarySet, applyDirichletRows, rows1, rows2,
    thomasSolve, thomasFwd, thomasBack, List.ofFn_succ, mkFdmHestonOp,
    FdmLinearOpComposite.apply, FdmLinearOpComposite.apply1,
    FdmLinearOpComposite.apply2, FdmLinearOpComposite.applyMixed, prevX,
    nextX, prevV, nextV, hMinus, hPlus, interior, fixtureProcess,
    fixtureXMesh, fixtureVMesh, fixtureGrid, List.getD, Fin.isValue]

/-- C7: configuration errors (too few mesh points, non-monotone mesh,
non-positive diffusion parameters, non-positive maturity or step count)
are detected eagerly at solver construction, surfaced to the caller as an
error, and a successful construction stores the inputs unchanged (never
silently corrected). -/
theorem construction_validates_config {nx nv : ℕ} (p : HestonProcessDesc)
    (xm : Fin nx → ℚ) (vm : Fin nv → ℚ) (bcs : BoundaryConditionSet)
    (payoff : ℚ → ℚ → ℚ) (mat : ℚ) (ts ss : ℕ) (type : FdmSchemeType)
    (theta mu : ℚ) :
    (validConfig p xm vm mat ts →
      mkFdmHestonSolver p xm vm bcs payoff mat ts ss type theta mu =
        .ok (initialState p xm vm bcs payoff mat ts ss type theta mu)) ∧
    (¬ validConfig p xm vm mat ts →
      ∃ e, mkFdmHestonSolver p xm vm bcs payoff mat ts ss type theta mu =
        .error e) ∧
    (∀ s, mkFdmHestonSolver p xm vm bcs payoff mat ts ss type theta mu =
        .ok s →
      s.process = p ∧ s.xMesh = xm ∧ s.vMesh = vm ∧ s.bcSet = bcs ∧
        s.payoff = payoff ∧ s.maturity = mat ∧ s.timeSteps = ts ∧
        s.schemeType = type ∧ s.theta = theta ∧ s.mu = mu ∧
        s.calculated = false) := by
  refine ⟨?_, ?_, ?_⟩
  · rintro ⟨h1, h2, h3, h4, h5, h6, h7, h8⟩
    simp [mkFdmHestonSolver, h1, h2, h3, h4, h5, h6, h7, h8]
  · intro hv
    by_cases h1 : 3 ≤ nx ∧ 3 ≤ nv
    · by_cases h2 : strictlyIncreasing xm ∧ strictlyIncreasing vm
      · by_cases h3 : 0 < p.sigma ∧ 0 < p.v0
        · by_cases h4 : 0 < mat ∧ 0 < ts
          · exact absurd ⟨h1.1, h1.2, h2.1, h2.2, h3.1, h3.2, h4.1, h4.2⟩ hv
          · exact ⟨.nonPositiveTimeStep,
              by simp [mkFdmHestonSolver, h1, h2, h3, h4]⟩
        · exact ⟨.nonPositiveDiffusion, by simp [mkFdmHestonSolver, h1, h2, h3]⟩
      · exact ⟨.nonMonotoneMesh, by simp [mkFdmHestonSolver, h1, h2]⟩
    · exact ⟨.invalidPointCount, by simp [mkFdmHestonSolver, h1]⟩
  · intro s hs
    unfold mkFdmHestonSolver at hs
    split_ifs at hs
    cases hs
    simp [initialState]

theorem sinhSurrogate_strictMono {a b : ℚ} (h : a < b) :
    sinhSurrogate a < sinhSurrogate b := by
  unfold sinhSurrogate
  nlinarith [sq_nonneg (a + b), sq_nonneg (a - b), sq_nonneg a, sq_nonneg b]

/-- C9: for every target range with positive width and every concentration
point, a requested point count of at least 3 makes the mesher produce a
coordinate sequence that has exactly the requested length and is strictly
increasing. -/
theorem mesher_monotone_requested_length (xMin xMax cPoint : ℚ) (n : ℕ)
    (hn : 3 ≤ n) (hw : xMin < xMax) :
    (concentratingMesh xMin xMax cPoint n).length = n ∧
    List.Chain' (· < ·) (concentratingMesh xMin xMax cPoint n) := by
  constructor
  · simp [concentratingMesh]
  · unfold concentratingMesh
    rw [List.chain'_ofFn]
    intro i hi
    have hd : (0 : ℚ) < (n : ℚ) - 1 := by
      have : (3 : ℚ) ≤ (n : ℚ) := by exact_mod_cast hn
      linarith
    have harg : -1 + 2 * ((i : ℚ)) / ((n : ℚ) - 1) <
        -1 + 2 * ((i + 1 : ℕ) : ℚ) / ((n : ℚ) - 1) := by
      have hnum : (2 : ℚ) * (i : ℚ) < 2 * ((i + 1 : ℕ) : ℚ) := by
        push_cast
        linarith
      exact add_lt_add_left ((div_lt_div_iff_of_pos_right hd).mpr hnum) _
    have hsur := sinhSurrogate_strictMono harg
    have hcoef : (0 : ℚ) < (xMax - xMin) / 4 := by linarith
    simp only
    have := mul_lt_mul_of_pos_left hsur hcoef
    linarith


theorem inDomain_eq_true_iff {nx nv : ℕ} (t : FdmHestonSolverState nx nv)
    (x y : ℚ) :
    t.inDomain x y = true ↔
      (meshGetD t.xMesh 0 ≤ x ∧ x ≤ meshGetD t.xMesh (nx - 1) ∧
        meshGetD t.vMesh 0 ≤ y ∧ y ≤ meshGetD t.vMesh (nv - 1)) := by
  simp [FdmHestonSolverState.inDomain, and_assoc]

/-- C3: on the fresh solver produced by recomputation, `thetaAt` is read
off the stored grids without re-solving (the returned state is the fresh
solver unchanged) and equals the finite difference between the grid
recorded by the snapshot condition after `snapshotStep` backward steps and
the terminal grid of the full march, divided by the elapsed time between
the two grids. -/
theorem thetaAt_is_snapshot_difference {nx nv : ℕ}
    (s : FdmHestonSolverState nx nv) (x y : ℚ) (hstale : s.calculated = false)
    (hdom : s.calculate.inDomain x y = true) :
    s.calculate.thetaAt x y =
      (Except.ok ((interpolate s.xMesh s.vMesh
            (evolve s.schemeType (mkFdmHestonOp s.process s.xMesh s.vMesh)
              s.theta s.mu (s.maturity / s.timeSteps) s.bcSet s.snapshotStep
              (fun i j => s.payoff (s.xMesh i) (s.vMesh j))) x y -
          interpolate s.xMesh s.vMesh
            (evolve s.schemeType (mkFdmHestonOp s.process s.xMesh s.vMesh)
              s.theta s.mu (s.maturity / s.timeSteps) s.bcSet s.timeSteps
              (fun i j => s.payoff (s.xMesh i) (s.vMesh j))) x y) /
          (s.maturity - s.snapshotStep * (s.maturity / s.timeSteps))),
        s.calculate) := by
  have hc : s.calculate = s.performCalculations := by
    simp [FdmHestonSolverState.calculate, hstale]
  rw [hc] at hdom ⊢
  have hcc : s.performCalculations.calculate = s.performCalculations := rfl
  simp only [FdmHestonSolverState.thetaAt, hcc, hdom, if_true]
  rfl

/-- C6: under the step guard (`0 < eps` at most half the nearest grid
spacing) and inside the domain, `deltaAt` and `gammaAt` return the
centred first and second finite differences, with step `eps`, of the
interpolated surface exposed by `valueAt`; a step violating the guard is
rejected. -/
theorem delta_gamma_centered_differences {nx nv : ℕ}
    (s : FdmHestonSolverState nx nv) (x y eps : ℚ)
    (heps : 0 < eps) (hhalf : eps ≤ nearestSpacing s.calculate.xMesh x / 2)
    (hdm : s.calculate.inDomain (x - eps) y = true)
    (hdp : s.calculate.inDomain (x + eps) y = true)
    (hd0 : s.calculate.inDomain x y = true) :
    (∃ vp vm v0 : ℚ,
      (s.valueAt (x + eps) y).1 = .ok vp ∧
      (s.valueAt (x - eps) y).1 = .ok vm ∧
      (s.valueAt x y).1 = .ok v0 ∧
      (s.deltaAt x y eps).1 = .ok ((vp - vm) / (2 * eps)) ∧
      (s.gammaAt x y eps).1 = .ok ((vp - 2 * v0 + vm) / eps ^ 2)) ∧
    ∀ e : ℚ, ¬ (0 < e ∧ e ≤ nearestSpacing s.calculate.xMesh x / 2) →
      (s.deltaAt x y e).1 = .error .invalidEps ∧
      (s.gammaAt x y e).1 = .error .invalidEps := by
  constructor
  · refine ⟨interpolate s.calculate.xMesh s.calculate.vMesh
        s.calculate.resultValues (x + eps) y,
      interpolate s.calculate.xMesh s.calculate.vMesh
        s.calculate.resultValues (x - eps) y,
      interpolate s.calculate.xMesh s.calculate.vMesh
        s.calculate.resultValues x y, ?_, ?_, ?_, ?_, ?_⟩
    · simp [FdmHestonSolverState.valueAt, hdp]
    · simp [FdmHestonSolverState.valueAt, hdm]
    · simp [FdmHestonSolverState.valueAt, hd0]
    · simp only [FdmHestonSolverState.deltaAt]
      rw [if_neg (not_not_intro ⟨heps, hhalf⟩), if_pos ⟨hdm, hdp⟩]
    · simp only [FdmHestonSolverState.gammaAt]
      rw [if_neg (not_not_intro ⟨heps, hhalf⟩), if_pos ⟨hdm, hdp⟩]
  · intro e he
    constructor
    · simp only [FdmHestonSolverState.deltaAt]
      rw [if_pos he]
    · simp only [FdmHestonSolverState.gammaAt]
      rw [if_pos he]

/-- C8: a query point outside the meshed domain makes `valueAt`,
`thetaAt` and (for any guard-passing step) `deltaAt` and `gammaAt`
signal a domain error rather than extrapolate. -/
theorem queries_outside_domain_error {nx nv : ℕ}
    (s : FdmHestonSolverState nx nv) (x y : ℚ)
    (h : s.calculate.inDomain x y = false) :
    (s.valueAt x y).1 = .error .outOfDomain ∧
    (s.thetaAt x y).1 = .error .outOfDomain ∧
    ∀ eps : ℚ, 0 < eps → eps ≤ nearestSpacing s.calculate.xMesh x / 2 →
      (s.deltaAt x y eps).1 = .error .outOfDomain ∧
      (s.gammaAt x y eps).1 = .error .outOfDomain := by
  refine ⟨?_, ?_, ?_⟩
  · simp [FdmHestonSolverState.valueAt, h]
  · simp [FdmHestonSolverState.thetaAt, h]
  · intro eps heps hhalf
    have hnot : ¬ (s.calculate.inDomain (x - eps) y = true ∧
        s.calculate.inDomain (x + eps) y = true) := by
      rintro ⟨ha, hb⟩
      rw [inDomain_eq_true_iff] at ha hb
      have hfalse : ¬ (s.calculate.inDomain x y = true) := by simp [h]
      rw [inDomain_eq_true_iff] at hfalse
      push_neg at hfalse
      obtain ⟨ham1, _, ham3, ham4⟩ := ha
      obtain ⟨_, hbm2, _, _⟩ := hb
      linarith [hfalse (by linarith) (by linarith) ham3]
    constructor
    · simp only [FdmHestonSolverState.deltaAt]
      rw [if_neg (not_not_intro ⟨heps, hhalf⟩), if_neg hnot]
    · simp only [FdmHestonSolverState.gammaAt]
      rw [if_neg (not_not_intro ⟨heps, hhalf⟩), if_neg hnot]

/-- Concrete fixture: a fresh (already calculated) solver state. -/
def fixtureFreshSolver : FdmHestonSolverState 3 3 :=
  { process := fixtureProcess
    xMesh := fixtureXMesh
    vMesh := fixtureVMesh
    bcSet := []
    payoff := fun x _ => x
    maturity := 1
    timeSteps := 2
    snapshotStep := 1
    schemeType := .DouglasScheme
    theta := 3 / 10
    mu := 1 / 2
    calculated := true
    resultValues := fixtureGrid
    snapshotValues := fixtureGrid }

/-- Concrete fixture: the same solver in the stale state. -/
def fixtureStaleSolver : FdmHestonSolverState 3 3 :=
  { fixtureFreshSolver with calculated := false }

/-- Concrete fixture: a lower-edge Dirichlet condition along dimension 1. -/
def fixtureBc : FdmDirichletBoundary := ⟨0, .lowerSide, 5⟩

/-- Witness for C1 at a concrete fresh solver. -/
theorem lazy_fresh_cache_idempotent_witness :
    fixtureFreshSolver.calculated = true ∧
    ((fixtureFreshSolver.valueAt 1 2).2 = fixtureFreshSolver ∧
      ((fixtureFreshSolver.valueAt 1 2).2.valueAt 1 2).1 =
        (fixtureFreshSolver.valueAt 1 2).1 ∧
      ∀ t : FdmHestonSolverState 3 3,
        t.performCalculations.performCalculations = t.performCalculations) :=
  ⟨rfl, lazy_fresh_cache_idempotent fixtureFreshSolver 1 2 rfl⟩

/-- Witness for C3 at a concrete recomputed solver. -/
theorem thetaAt_is_snapshot_difference_witness :
    fixtureStaleSolver.calculated = false ∧
    fixtureStaleSolver.calculate.inDomain 1 2 = true ∧
    fixtureStaleSolver.calculate.thetaAt 1 2 =
      (Except.ok ((interpolate fixtureStaleSolver.xMesh fixtureStaleSolver.vMesh
            (evolve fixtureStaleSolver.schemeType
              (mkFdmHestonOp fixtureStaleSolver.process fixtureStaleSolver.xMesh
                fixtureStaleSolver.vMesh)
              fixtureStaleSolver.theta fixtureStaleSolver.mu
              (fixtureStaleSolver.maturity / fixtureStaleSolver.timeSteps)
              fixtureStaleSolver.bcSet fixtureStaleSolver.snapshotStep
              (fun i j => fixtureStaleSolver.payoff (fixtureStaleSolver.xMesh i)
                (fixtureStaleSolver.vMesh j))) 1 2 -
          interpolate fixtureStaleSolver.xMesh fixtureStaleSolver.vMesh
            (evolve fixtureStaleSolver.schemeType
              (mkFdmHestonOp fixtureStaleSolver.process fixtureStaleSolver.xMesh
                fixtureStaleSolver.vMesh)
              fixtureStaleSolver.theta fixtureStaleSolver.mu
              (fixtureStaleSolver.maturity / fixtureStaleSolver.timeSteps)
              fixtureStaleSolver.bcSet fixtureStaleSolver.timeSteps
              (fun i j => fixtureStaleSolver.payoff (fixtureStaleSolver.xMesh i)
                (fixtureStaleSolver.vMesh j))) 1 2) /
          (fixtureStaleSolver.maturity - fixtureStaleSolver.snapshotStep *
            (fixtureStaleSolver.maturity / fixtureStaleSolver.timeSteps))),
        fixtureStaleSolver.calculate) := by
  have hdom : fixtureStaleSolver.calculate.inDomain 1 2 = true := by
    norm_num [FdmHestonSolverState.inDomain, FdmHestonSolverState.calculate,
      FdmHestonSolverState.performCalculations, fixtureStaleSolver,
      fixtureFreshSolver, meshGetD, fixtureXMesh, fixtureVMesh]
  exact ⟨rfl, hdom, thetaAt_is_snapshot_difference fixtureStaleSolver 1 2 rfl hdom⟩

/-- Witness for C4 at a concrete boundary condition and march. -/
theorem dirichlet_boundary_enforced_witness :
    (fixtureBc ∈ [fixtureBc] ∧
      bcMatches fixtureBc (0 : Fin 3) (1 : Fin 3) = true) ∧
    ((∀ (val : ℚ) (rest : List (ℚ × ℚ × ℚ × ℚ)),
        (thomasSolve ((0, 1, 0, val) :: rest)).head? = some val) ∧
      (∀ (val : ℚ) (rows : List (ℚ × ℚ × ℚ × ℚ)),
        (thomasSolve (rows ++ [(0, 1, 0, val)])).getLast? = some val) ∧
      evolve .DouglasScheme
          (mkFdmHestonOp fixtureProcess fixtureXMesh fixtureVMesh) (3 / 10)
          (1 / 2) 1 [fixtureBc] 1 fixtureGrid 0 1 = fixtureBc.value) :=
  ⟨⟨by simp, rfl⟩,
    dirichlet_boundary_enforced .DouglasScheme
      (mkFdmHestonOp fixtureProcess fixtureXMesh fixtureVMesh) (3 / 10)
      (1 / 2) 1 [fixtureBc] fixtureGrid 1 (le_refl 1) fixtureBc (by simp)
      0 1 rfl (by simp)⟩

/-- Witness for C9 at a concrete mesher request. -/
theorem mesher_monotone_requested_length_witness :
    ((3 : ℕ) ≤ 5 ∧ (0 : ℚ) < 1) ∧
    ((concentratingMesh 0 1 (1 / 2) 5).length = 5 ∧
      List.Chain' (· < ·) (concentratingMesh 0 1 (1 / 2) 5)) :=
  ⟨⟨by norm_num, by norm_num⟩,
    mesher_monotone_requested_length 0 1 (1 / 2) 5 (by norm_num) (by norm_num)⟩


/-- Witness for C6 at a concrete solver and step. -/
theorem delta_gamma_centered_differences_witness :
    ((0 : ℚ) < 1 / 4 ∧
      (1 / 4 : ℚ) ≤ nearestSpacing fixtureStaleSolver.calculate.xMesh 1 / 2 ∧
      fixtureStaleSolver.calculate.inDomain (1 - 1 / 4) 2 = true ∧
      fixtureStaleSolver.calculate.inDomain (1 + 1 / 4) 2 = true ∧
      fixtureStaleSolver.calculate.inDomain 1 2 = true) ∧
    ((∃ vp vm v0 : ℚ,
      (fixtureStaleSolver.valueAt (1 + 1 / 4) 2).1 = .ok vp ∧
      (fixtureStaleSolver.valueAt (1 - 1 / 4) 2).1 = .ok vm ∧
      (fixtureStaleSolver.valueAt 1 2).1 = .ok v0 ∧
      (fixtureStaleSolver.deltaAt 1 2 (1 / 4)).1 = .ok ((vp - vm) / (2 * (1 / 4))) ∧
      (fixtureStaleSolver.gammaAt 1 2 (1 / 4)).1 =
        .ok ((vp - 2 * v0 + vm) / (1 / 4 : ℚ) ^ 2)) ∧
    ∀ e : ℚ, ¬ (0 < e ∧ e ≤ nearestSpacing fixtureStaleSolver.calculate.xMesh 1 / 2) →
      (fixtureStaleSolver.deltaAt 1 2 e).1 = .error .invalidEps ∧
      (fixtureStaleSolver.gammaAt 1 2 e).1 = .error .invalidEps) := by
  have hspace : nearestSpacing fixtureStaleSolver.calculate.xMesh 1 = 1 := by
    norm_num [nearestSpacing, cellIndex, lastIndexLE, meshGetD,
      FdmHestonSolverState.calculate, FdmHestonSolverState.performCalculations,
      fixtureStaleSolver, fixtureFreshSolver, fixtureXMesh,
      show List.range 3 = [0, 1, 2] from rfl]
  have hhalf : (1 / 4 : ℚ) ≤ nearestSpacing fixtureStaleSolver.calculate.xMesh 1 / 2 := by
    rw [hspace]; norm_num
  have hdm : fixtureStaleSolver.calculate.inDomain (1 - 1 / 4) 2 = true := by
    norm_num [FdmHestonSolverState.inDomain, FdmHestonSolverState.calculate,
      FdmHestonSolverState.performCalculations, fixtureStaleSolver,
      fixtureFreshSolver, meshGetD, fixtureXMesh, fixtureVMesh]
  have hdp : fixtureStaleSolver.calculate.inDomain (1 + 1 / 4) 2 = true := by
    norm_num [FdmHestonSolverState.inDomain, FdmHestonSolverState.calculate,
      FdmHestonSolverState.performCalculations, fixtureStaleSolver,
      fixtureFreshSolver, meshGetD, fixtureXMesh, fixtureVMesh]
  have hd0 : fixtureStaleSolver.calculate.inDomain 1 2 = true := by
    norm_num [FdmHestonSolverState.inDomain, FdmHestonSolverState.calculate,
      FdmHestonSolverState.performCalculations, fixtureStaleSolver,
      fixtureFreshSolver, meshGetD, fixtureXMesh, fixtureVMesh]
  exact ⟨⟨by norm_num, hhalf, hdm, hdp, hd0⟩,
    delta_gamma_centered_differences fixtureStaleSolver 1 2 (1 / 4)
      (by norm_num) hhalf hdm hdp hd0⟩

/-- Witness for C7 at a concrete valid configuration. -/
theorem construction_validates_config_witness :
    validConfig fixtureProcess fixtureXMesh fixtureVMesh 1 2 ∧
    mkFdmHestonSolver fixtureProcess fixtureXMesh fixtureVMesh []
        (fun x _ => x) 1 2 1 .DouglasScheme (3 / 10) (1 / 2) =
      .ok (initialState fixtureProcess fixtureXMesh fixtureVMesh []
        (fun x _ => x) 1 2 1 .DouglasScheme (3 / 10) (1 / 2)) := by
  have hx : strictlyIncreasing fixtureXMesh := by
    rw [strictlyIncreasing, List.chain'_ofFn]
    intro i hi
    simp only [fixtureXMesh]
    push_cast
    linarith
  have hv : strictlyIncreasing fixtureVMesh := by
    rw [strictlyIncreasing, List.chain'_ofFn]
    intro i hi
    simp only [fixtureVMesh]
    push_cast
    linarith
  have hcfg : validConfig fixtureProcess fixtureXMesh fixtureVMesh 1 2 :=
    ⟨by norm_num, by norm_num, hx, hv, by norm_num [fixtureProcess],
      by norm_num [fixtureProcess], by norm_num, by norm_num⟩
  exact ⟨hcfg,
    (construction_validates_config fixtureProcess fixtureXMesh fixtureVMesh []
      (fun x _ => x) 1 2 1 .DouglasScheme (3 / 10) (1 / 2)).1 hcfg⟩

/-- Witness for C8 at a concrete out-of-domain query point. -/
theorem queries_outside_domain_error_witness :
    fixtureStaleSolver.calculate.inDomain 10 20 = false ∧
    ((fixtureStaleSolver.valueAt 10 20).1 = .error .outOfDomain ∧
      (fixtureStaleSolver.thetaAt 10 20).1 = .error .outOfDomain ∧
      (fixtureStaleSolver.deltaAt 10 20 (1 / 4)).1 = .error .outOfDomain ∧
      (fixtureStaleSolver.gammaAt 10 20 (1 / 4)).1 = .error .outOfDomain) := by
  have h : fixtureStaleSolver.calculate.inDomain 10 20 = false := by
    norm_num [FdmHestonSolverState.inDomain, FdmHestonSolverState.calculate,
      FdmHestonSolverState.performCalculations, fixtureStaleSolver,
      fixtureFreshSolver, meshGetD, fixtureXMesh, fixtureVMesh]
  have hspace : nearestSpacing fixtureStaleSolver.calculate.xMesh 10 = 1 := by
    norm_num [nearestSpacing, cellIndex, lastIndexLE, meshGetD,
      FdmHestonSolverState.calculate, FdmHestonSolverState.performCalculations,
      fixtureStaleSolver, fixtureFreshSolver, fixtureXMesh,
      show List.range 3 = [0, 1, 2] from rfl]
  have hall := queries_outside_domain_error fixtureStaleSolver 10 20 h
  have hdg := hall.2.2 (1 / 4) (by norm_num) (by rw [hspace]; norm_num)
  exact ⟨h, hall.1, hall.2.1, hdg.1, hdg.2⟩

end QuantLib
